import Mathlib

/-!
# Verification of the gulp-task-maker configuration/registration engine

Shallow embedding of the configuration-normalization and task-registration
code of `gulp-task-maker` (files `register.js`, `helpers.js`, `feedback.js`,
`state.js`, `shared.js` and the main `add` module), together with proofs
about the claims of the natural-language specification.

JavaScript values are modelled by the inductive type `JSVal`; plain objects
are association lists with unique keys (`Obj`); function values carry a
numeric identity (`JSVal.func`) since the code only compares them by
reference and reads `name` / `displayName` / `defaultConfig` through the
dedicated `Callback` record.
-/

namespace GTM

/-! ## Definitions: the embedded data model and operations -/

/-- A JavaScript value, as far as the configuration engine inspects values:
`undefined`, `null`, booleans, numbers, strings, arrays, functions
(identified by reference), and plain objects (field lists). -/
inductive JSVal where
  | undef : JSVal
  | null : JSVal
  | bool (b : Bool) : JSVal
  | num (n : Int) : JSVal
  | str (s : String) : JSVal
  | arr (elems : List JSVal) : JSVal
  | func (id : Nat) : JSVal
  | obj (fields : List (String × JSVal)) : JSVal

/-- A JavaScript plain object: a field list. JS objects cannot repeat keys;
theorems that need this use the `NoDupKeys` hypothesis. -/
abbrev Obj := List (String × JSVal)

/-- Keys of a JS object are pairwise distinct. -/
def NoDupKeys (o : Obj) : Prop := (o.map Prod.fst).Nodup

instance (o : Obj) : Decidable (NoDupKeys o) := by
  unfold NoDupKeys; infer_instance

/-- Property read `o[k]` on a plain object: the value stored under `k`,
or `undefined` when the key is absent. -/
def getProp (o : Obj) (k : String) : JSVal :=
  match o.find? (fun p => p.1 = k) with
  | some p => p.2
  | none => JSVal.undef

/-- Property write `o[k] = v`: overwrite the value when the key exists
(keeping key order, as JS does), append the key otherwise. -/
def setProp (o : Obj) (k : String) (v : JSVal) : Obj :=
  if o.any (fun p => p.1 = k) then
    o.map (fun p => if p.1 = k then (k, v) else p)
  else
    o ++ [(k, v)]

/-- `Object.assign(target, source)` for plain objects: copy each own key of
`source` onto `target`, in order. -/
def assignObj (target source : Obj) : Obj :=
  source.foldl (fun t p => setProp t p.1 p.2) target

/-- The field list of a value used as an `Object.assign` source: objects
contribute their fields, `null`/`undefined` contribute nothing (JS skips
them), and other primitives contribute no enumerable own properties that the
code would read (an array source would contribute index keys; the engine
never passes one as a base config). -/
def fieldsOf : JSVal → Obj
  | JSVal.obj fs => fs
  | JSVal.arr xs => (List.range xs.length).zip xs |>.map (fun p => (toString p.1, p.2))
  | _ => []

/-- JS truthiness, for the values the engine actually tests. -/
def truthy : JSVal → Bool
  | JSVal.undef => false
  | JSVal.null => false
  | JSVal.bool b => b
  | JSVal.num n => decide (n ≠ 0)
  | JSVal.str s => decide (s ≠ "")
  | JSVal.arr _ => true
  | JSVal.func _ => true
  | JSVal.obj _ => true

/-- `helpers.js` `isObject`: not `null` and `typeof` is `'object'`
(arrays count, since `typeof [] === 'object'`). -/
def isObjectJs : JSVal → Bool
  | JSVal.null => false
  | JSVal.obj _ => true
  | JSVal.arr _ => true
  | _ => false

/-- `String.prototype.trim`: strip leading and trailing whitespace
(space, tab, carriage return, line feed — the whitespace characters the
engine's inputs can contain). -/
def jsTrim (s : String) : String :=
  ⟨((s.data.dropWhile Char.isWhitespace).reverse.dropWhile Char.isWhitespace).reverse⟩

/-- `v === true`: strict equality against the boolean literal `true`. -/
def isLiteralTrue : JSVal → Bool
  | JSVal.bool true => true
  | _ => false

/-- Worker for `dedupFirst`: keep each string not seen before, in order. -/
def dedupFirstAux (seen : List String) : List String → List String
  | [] => []
  | x :: xs =>
      if x ∈ seen then dedupFirstAux seen xs
      else x :: dedupFirstAux (x :: seen) xs

/-- First-seen-order deduplication, the effect of `Array.from(new Set(list))`
(a JS `Set` iterates in insertion order and ignores re-inserted duplicates). -/
def dedupFirst (l : List String) : List String := dedupFirstAux [] l

/-- `helpers.js` `toUniqueStrings`: wrap a non-array input in a one-element
array; map each element to its trimmed value when it is a string and to
`null` otherwise; `filter(Boolean)` (dropping `null` and the empty string);
then deduplicate via `new Set` when more than one element remains. -/
def toUniqueStrings (input : JSVal) : List String :=
  let items : List JSVal := match input with
    | JSVal.arr xs => xs
    | v => [v]
  let list := items.filterMap (fun el => match el with
    | JSVal.str s => if jsTrim s = "" then none else some (jsTrim s)
    | _ => none)
  if list.length > 1 then dedupFirst list else list

/-- Build a JS array of strings. -/
def strArr (xs : List String) : JSVal := JSVal.arr (xs.map JSVal.str)

/-- `register.js` `normalizeSrc`: canonicalize `src`, let `watch === true`
alias the canonical `src`, and shallow-clone the config
(`Object.assign(Object.create(null), conf, {src, watch})`), so the input
object is not mutated. -/
def normalizeSrc (conf : Obj) : Obj :=
  let src := toUniqueStrings (getProp conf "src")
  let watch := if isLiteralTrue (getProp conf "watch") then src
               else toUniqueStrings (getProp conf "watch")
  setProp (setProp (assignObj [] conf) "src" (strArr src)) "watch" (strArr watch)

/-- The validation error messages of `register.js` `validateConfig`:
`dest` must be a string, and `src` must be a non-empty array. -/
def validateErrors (conf : Obj) : List String :=
  (match getProp conf "dest" with
    | JSVal.str _ => []
    | _ => ["Property 'dest' must be a string"])
  ++ (match getProp conf "src" with
    | JSVal.arr xs => if xs.length = 0 then ["Property 'src' property is empty"] else []
    | _ => ["Property 'src' property is empty"])

/-- `register.js` `validateConfig`'s boolean result: keep the config exactly
when no validation error was produced. -/
def validOk (conf : Obj) : Bool := validateErrors conf = []

/-- The merge `Object.assign({}, baseConfig, obj)` performed by
`normalizeUserConfig` on each user config. -/
def mergeBase (baseConfig : JSVal) (o : Obj) : Obj :=
  assignObj (assignObj [] (fieldsOf baseConfig)) o

/-- `register.js` `normalizeUserConfig`: merge each user config over the
callback's base config (`Object.assign({}, baseConfig, obj)`), normalize
`src`/`watch`, and keep only the configs that pass `validateConfig`. -/
def normalizeUserConfig (baseConfig : JSVal) (userConfigs : List Obj) : List Obj :=
  ((userConfigs.map (mergeBase baseConfig)).map normalizeSrc).filter validOk

/-- Written from the claim's words (not from the source): the trimmed
elements of the input `src` that are non-blank strings, in first-seen order
with duplicates removed. -/
def specCanonSrc (input : JSVal) : List String :=
  dedupFirst ((match input with
    | JSVal.arr xs => xs
    | v => [v]).filterMap (fun el =>
      match el with
      | JSVal.str s => if jsTrim s = "" then none else some (jsTrim s)
      | _ => none))

/-- A config with a function `dest` and a perfectly good `src`. -/
def c2conf : Obj := [("dest", JSVal.func 0), ("src", JSVal.arr [JSVal.str "a.js"])]

/-- A well-formed config for the C2 witness: string `dest`, `src` needing
trimming and deduplication. -/
def c2wconf : Obj :=
  [("dest", JSVal.str "out"), ("src", JSVal.arr [JSVal.str " a.js ", JSVal.str "a.js", JSVal.str "b.js"])]

/-- A config whose raw `src` differs from its canonical form. -/
def c3conf : Obj :=
  [("src", JSVal.arr [JSVal.str "a", JSVal.str " a ", JSVal.str "b"]),
   ("watch", JSVal.bool true), ("dest", JSVal.str "out")]

/-- The global `options.prefix` pair used by `defineGulpTask`. -/
structure Prefixes where
  build : String
  watch : String

/-- The task-id computation in the `forEach` of `register.js`'s
`registerTasks`: append the trimmed string `name` property when present,
else a 1-based index when the user supplied more than one config
(`configs.length > 1` counts the raw supplied configs). -/
def taskIdOf (name : String) (suppliedCount : Nat) (nc : Obj) (index : Nat) : String :=
  match getProp nc "name" with
  | JSVal.str s => name ++ "_" ++ jsTrim s
  | _ => if suppliedCount > 1 then name ++ "_" ++ toString (index + 1) else name

/-- `Array.isArray(config.watch) && config.watch.length > 0`, the guard that
decides whether `defineGulpTask` registers a watch task. -/
def watchNonEmpty (nc : Obj) : Bool :=
  match getProp nc "watch" with
  | JSVal.arr xs => decide (xs.length > 0)
  | _ => false

/-- `register.js` `registerTasks` followed by `defineGulpTask`: one entry per
normalized config, holding the registered build task id
(`options.prefix.build + taskId`) and the watch task id
(`options.prefix.watch + taskId`) when a watch task is registered. -/
def registerTaskPairs (px : Prefixes) (name : String) (baseConfig : JSVal)
    (configs : List Obj) : List (String × Option String) :=
  let normalized := normalizeUserConfig baseConfig configs
  normalized.enum.map (fun p =>
    let taskId := taskIdOf name configs.length p.2 p.1
    (px.build ++ taskId,
     if watchNonEmpty p.2 then some (px.watch ++ taskId) else none))

/-- Written from the claim's words (not from the source): the derived job id
of the config at index `i` is `N + '_' + trimmed name` when the config has a
string `name`, else `N + '_' + (i + 1)` when more than one config was
supplied, else exactly `N`. -/
def specJobId (n : String) (cfg : Obj) (i : Nat) (suppliedCount : Nat) : String :=
  match getProp cfg "name" with
  | JSVal.str s => n ++ "_" ++ jsTrim s
  | _ => if suppliedCount > 1 then n ++ "_" ++ toString (i + 1) else n

/-- Supplied configs for the C1 witness: the first unnamed with
`watch: true`, the second named `beta`. -/
def c1cfgs : List Obj :=
  [[("dest", JSVal.str "out"), ("src", JSVal.str "a.js"), ("watch", JSVal.bool true)],
   [("dest", JSVal.str "out"), ("src", JSVal.str "b.js"), ("name", JSVal.str "beta")]]

/-- A group's configured value in `options.groups`: a static id list,
a predicate over task names, or anything else (skipped with `return`). -/
inductive GroupValue where
  | list (ids : List String)
  | pred (f : String → Bool)
  | other

/-- `key.trim().replace(/[^a-z]+/gi, '')`: trim the group key and strip every
non-letter character. -/
def cleanGroupName (key : String) : String :=
  ⟨(jsTrim key).data.filter (fun c => c.isAlpha)⟩

/-- The `[name, value]` pairs built at the top of `defineTaskGroups` from
`Object.keys(options.groups)`. -/
def groupPairs (optGroups : List (String × GroupValue)) : List (String × GroupValue) :=
  optGroups.map (fun p => (cleanGroupName p.1, p.2))

/-- `groups.includes(child)` in `defineTaskGroups`. `Array.prototype.includes`
compares with SameValueZero; `child` is a task-name string while every
element of `groups` is a freshly built two-element array `[name, value]`
(an object reference), and a string is never SameValueZero-equal to an
object, so each comparison — and hence the whole `includes` — is `false`. -/
def groupsIncludesChild (groups : List (String × GroupValue)) (_child : String) : Bool :=
  groups.any (fun _pair => false)

/-- The child list computed by `defineTaskGroups` (helpers.js) for one group
value: a static array is used as-is; for a predicate, the currently
registered gulp task names are filtered by the predicate and then by the
intended group-exclusion filter `child => !groups.includes(child)`;
other values are skipped. -/
def computedChildren (groups : List (String × GroupValue)) (gulpTasks : List String) :
    GroupValue → Option (List String)
  | GroupValue.list ids => some ids
  | GroupValue.pred f =>
      some ((gulpTasks.filter f).filter (fun child => ! groupsIncludesChild groups child))
  | GroupValue.other => none

/-- A job-definition entry as `showLoadingErrors` reads it: its name, its
aggregated `sources` globs, and its deferred error messages (load errors and
validation errors recorded earlier). -/
structure ScriptData where
  name : String
  sources : List String
  errors : List String

/-- Replace each newline by a newline plus two spaces
(`.replace(/\n/g, '\n  ')`). -/
def indentNewlines (s : String) : String :=
  ⟨s.data.foldr (fun c acc => if c = '\n' then '\n' :: ' ' :: ' ' :: acc else c :: acc) []⟩

/-- `msg.startsWith('Error')`. -/
def startsWithError (msg : String) : Bool :=
  "Error".data.isPrefixOf msg.data

/-- The messages `showLoadingErrors` pushes for one script before deciding
whether the script failed: a missing-sources line when some glob matches no
files (`missing s` abstracts `glob.sync(s).length === 0`), then one line per
recorded error. -/
def problemMessages (missing : String → Bool) (d : ScriptData) : List String :=
  let mSources := d.sources.filter missing
  (if mSources.length ≠ 0 then
    ["✘ Missing sources: "
      ++ (if mSources.length > 1 then "\n  " else "")
      ++ String.intercalate "\n  " (mSources.map (fun s => "'" ++ s ++ "'"))]
   else [])
  ++ d.errors.map (fun msg =>
      "✘ " ++ (if startsWithError msg then "" else "Error: ") ++ indentNewlines msg)

/-- A script fails exactly when it pushed at least one problem message. -/
def hasProblem (missing : String → Bool) (d : ScriptData) : Bool :=
  decide (problemMessages missing d ≠ [])

/-- The per-script status shown in the report (clean scripts get the
"No issues" line). -/
def statusMessages (missing : String → Bool) (d : ScriptData) : List String :=
  if (problemMessages missing d).length > 0 then problemMessages missing d
  else ["✔ No issues detected"]

/-- `failedTasks` as collected by `showLoadingErrors`: the names of the
scripts whose message list is non-empty, in registry order. -/
def failedTasks (missing : String → Bool) (scripts : List ScriptData) : List String :=
  (scripts.filter (hasProblem missing)).map ScriptData.name

/-- The text of the consolidated report handed to `showError`. -/
def reportText (missing : String → Bool) (scripts : List ScriptData) : String :=
  (if (failedTasks missing scripts).length > 1 then "Errors" else "Error")
    ++ " in "
    ++ String.intercalate ", " ((failedTasks missing scripts).map (fun s => "'" ++ s ++ "'"))
    ++ "\n"
    ++ String.intercalate "\n" (scripts.map (fun d =>
        d.name ++ ":\n  "
          ++ indentNewlines (String.intercalate "\n" (statusMessages missing d))))

/-- One call to `showLoadingErrors`: given the module-level
`showLoadingErrors.shown` flag and the scripts registry, return the new flag
and the emitted report, if any. The report is emitted — and the flag set —
only when at least one script failed. -/
def showLoadingErrorsStep (missing : String → Bool) (shown : Bool)
    (scripts : List ScriptData) : Bool × Option String :=
  if shown then (shown, none)
  else if (failedTasks missing scripts).length ≠ 0 then
    (true, some (reportText missing scripts))
  else (shown, none)

/-- A whole process run: the sequence of `showLoadingErrors` calls, threading
the `shown` flag; returns the final flag and how many reports were emitted. -/
def runShowLoadingErrors (missing : String → Bool) :
    Bool → List (List ScriptData) → Bool × Nat
  | shown, [] => (shown, 0)
  | shown, c :: cs =>
      ((runShowLoadingErrors missing (showLoadingErrorsStep missing shown c).1 cs).1,
       (if ((showLoadingErrorsStep missing shown c).2).isSome then 1 else 0)
         + (runShowLoadingErrors missing (showLoadingErrorsStep missing shown c).1 cs).2)

/-- A script with one deferred error. -/
def c9bad : ScriptData := ⟨"mytask", [], ["Could not load module 'x'"]⟩

/-! ### part_004's `normalizeSrc` (claim C10)

`register.js`'s `normalizeSrc` assigns onto a fresh `Object.create(null)`,
so the caller's object is untouched. The earlier version in
`src/unnamed/part_004` (lines 431-448) instead passes `conf` itself as the
`Object.assign` target — its own comment says "return a copy instead of
mutating conf", but the call mutates `conf` and returns it. We model each
call as the pair (function result, state of the caller's object after the
call). -/

/-- `[].concat(input)`: the elements of an array input, or the single value. -/
def elemsOf : JSVal → List JSVal
  | JSVal.arr xs => xs
  | v => [v]

/-- The inner `validate` closure of part_004's `normalizeSrc`: collect each
trimmed string element once, skipping blanks, non-strings and values already
collected (`valid.indexOf(t) === -1`). -/
def p4validate (input : JSVal) : List String :=
  (elemsOf input).foldl (fun valid s =>
    match s with
    | JSVal.str str =>
        if jsTrim str ≠ "" ∧ jsTrim str ∉ valid then valid ++ [jsTrim str] else valid
    | _ => valid) []

/-- The object produced by part_004's `Object.assign(conf, {src, watch})`:
`conf` itself with its `src` and `watch` properties overwritten. -/
def p4assigned (conf : Obj) : Obj :=
  setProp (setProp conf "src" (strArr (p4validate (getProp conf "src"))))
    "watch" (strArr (if isLiteralTrue (getProp conf "watch")
                     then p4validate (getProp conf "src")
                     else p4validate (getProp conf "watch")))

/-- part_004's `normalizeSrc` as (result, caller's object after the call):
the `Object.assign` target is `conf` itself, so both components are the same
mutated object. -/
def p4normalizeSrc (conf : Obj) : Obj × Obj :=
  (p4assigned conf, p4assigned conf)

/-- `register.js`'s `normalizeSrc` as (result, caller's object after the
call): the `Object.assign` target is a fresh `Object.create(null)`, so the
caller's object is returned unchanged. -/
def normalizeSrcRun (conf : Obj) : Obj × Obj :=
  (normalizeSrc conf, conf)

/-- A config whose raw `src` differs from its canonical form. -/
def c10conf : Obj :=
  [("src", JSVal.str " a "), ("watch", JSVal.bool true), ("dest", JSVal.str "d")]

/-! ### `validateConfig`'s recording side effect (claim C4)

`register.js`'s `validateConfig` builds one `Error` whose message joins the
violated-field messages, then records it with
`handleError(err, options.strict ? null : scripts[name].errors)`.
`scripts` is the plain Array exported by `state.js` (entries are pushed by
the `add` module), so `scripts[name]` with a task-name string key is
`undefined` — an Array only has own properties for canonical numeric index
strings — and reading `.errors` on it throws a TypeError. -/

/-- The single error `validateConfig` builds for an invalid config: the task
name, the violated-field messages (joined into the thrown `Error`'s
message), and the offending config. -/
structure ValidationErr where
  task : String
  fields : List String
  conf : Obj

/-- One entry of the `scripts` registry as `validateConfig` would need it. -/
structure JobEntry where
  name : String
  errors : List ValidationErr

/-- Parse a non-empty all-digit character list as a natural number. -/
def parseNatDigits (cs : List Char) : Option Nat :=
  if cs ≠ [] ∧ cs.all Char.isDigit then
    some (cs.foldl (fun n c => n * 10 + (c.toNat - 48)) 0)
  else none

/-- The canonical-array-index test for a JS string key: `arr[key]` hits an
element only when `key` is the canonical decimal representation of an index
(`"0"`, `"1"`, ..., but not `"01"` or `"mytask"`). -/
def canonicalIndex? (key : String) : Option Nat :=
  match parseNatDigits key.data with
  | some n => if toString n = key then some n else none
  | none => none

/-- What `validateConfig` does beyond returning `false`. -/
inductive RecordOutcome where
  | ok
  | recorded (e : ValidationErr) (idx : Nat)
  | thrown (e : ValidationErr)
  | typeError

/-- `register.js` `validateConfig`, with its recording side effect: returns
the boolean result, the scripts registry after the call, and what happened.
In strict mode the store argument is `null`, so `handleError` falls through
to `showError`, which throws the validation error. In non-strict mode the
store argument is `scripts[name].errors`, evaluated before the call —
`scripts` being an Array, a non-index string key yields `undefined` and the
`.errors` read throws a TypeError. -/
def validateConfigRun (strict : Bool) (scripts : List JobEntry) (name : String)
    (conf : Obj) : Bool × List JobEntry × RecordOutcome :=
  if validateErrors conf = [] then (true, scripts, RecordOutcome.ok)
  else if strict then
    (false, scripts, RecordOutcome.thrown ⟨name, validateErrors conf, conf⟩)
  else
    match canonicalIndex? name with
    | some i =>
        match scripts[i]? with
        | some entry =>
            (false,
             scripts.set i { entry with
               errors := entry.errors ++ [⟨name, validateErrors conf, conf⟩] },
             RecordOutcome.recorded ⟨name, validateErrors conf, conf⟩ i)
        | none => (false, scripts, RecordOutcome.typeError)
    | none => (false, scripts, RecordOutcome.typeError)

/-- The global options object of `state.js`: the four boolean flags, the
build/watch task-name prefixes, and the task-group definitions (group name
to configured value; functions and arrays are kept by reference). -/
structure Options where
  debug : Bool
  notify : Bool
  parallel : Bool
  strict : Bool
  prefixBuild : String
  prefixWatch : String
  groups : Obj

mutual

/-- JS `String(v)`. A function stringifies to its source text, which the
option coercion never matches against its keyword lists; we use the fixed
word "function" for it. -/
def jsToString : JSVal → String
  | JSVal.undef => "undefined"
  | JSVal.null => "null"
  | JSVal.bool true => "true"
  | JSVal.bool false => "false"
  | JSVal.num n => toString n
  | JSVal.str s => s
  | JSVal.func _ => "function"
  | JSVal.arr xs => String.intercalate "," (jsToStringList xs)
  | JSVal.obj _ => "[object Object]"

def jsToStringList : List JSVal → List String
  | [] => []
  | v :: vs => jsToString v :: jsToStringList vs

end

/-- `s.toLowerCase()`. -/
def jsToLower (s : String) : String := ⟨s.data.map Char.toLower⟩

/-- helpers.js `strToBool`: `String(input).trim().toLowerCase()` against the
truthy and falsy keyword lists, else the default. -/
def strToBool (input : JSVal) (defaultValue : Bool) : Bool :=
  if ["1", "true", "on", "yes"].contains (jsToLower (jsTrim (jsToString input))) then true
  else if ["0", "false", "off", "no"].contains (jsToLower (jsTrim (jsToString input))) then false
  else defaultValue

/-- One iteration of the boolean-options loop in `setOptions`: assign a
boolean directly; any other non-nullish value goes through `strToBool`
(whose default is `false`); nullish values leave the option alone. -/
def boolOption (cur : Bool) (v : JSVal) : Bool :=
  match v with
  | JSVal.bool b => b
  | JSVal.undef => cur
  | JSVal.null => cur
  | w => strToBool w false

/-- `.replace(/\s+/g, '-')`: collapse every whitespace run into one dash. -/
def collapseWsAux : Bool → List Char → List Char
  | _, [] => []
  | prevWs, c :: cs =>
      if c.isWhitespace then
        (if prevWs then [] else ['-']) ++ collapseWsAux true cs
      else c :: collapseWsAux false cs

/-- `value.trim().replace(/\s+/g, '-')`, applied to prefix options. -/
def prefixClean (s : String) : String := ⟨collapseWsAux false (jsTrim s).data⟩

/-- The `['debug', 'notify', 'parallel', 'strict']` loop of `setOptions`. -/
def setOptionsBools (opts : Options) (input : JSVal) : Options :=
  { opts with
    debug := boolOption opts.debug (getProp (fieldsOf input) "debug"),
    notify := boolOption opts.notify (getProp (fieldsOf input) "notify"),
    parallel := boolOption opts.parallel (getProp (fieldsOf input) "parallel"),
    strict := boolOption opts.strict (getProp (fieldsOf input) "strict") }

/-- The `input.prefix` block of `setOptions`. -/
def setOptionsPrefix (opts : Options) (input : JSVal) : Options :=
  if isObjectJs (getProp (fieldsOf input) "prefix") then
    { opts with
      prefixBuild := (match getProp (fieldsOf (getProp (fieldsOf input) "prefix")) "build" with
        | JSVal.str s => prefixClean s
        | _ => opts.prefixBuild),
      prefixWatch := (match getProp (fieldsOf (getProp (fieldsOf input) "prefix")) "watch" with
        | JSVal.str s => prefixClean s
        | _ => opts.prefixWatch) }
  else opts

/-- The `input.groups` block of `setOptions`. -/
def setOptionsGroups (opts : Options) (input : JSVal) : Options :=
  if isObjectJs (getProp (fieldsOf input) "groups") then
    { opts with groups :=
        (fieldsOf (getProp (fieldsOf input) "groups")).foldl (fun g p =>
          match p.2 with
          | JSVal.func i => setProp g p.1 (JSVal.func i)
          | JSVal.arr xs => setProp g p.1 (JSVal.arr xs)
          | v => if truthy v then g else setProp g p.1 JSVal.null) opts.groups }
  else opts

/-- `state.js` `setOptions` (lines 73-100): throw when the input is not an
object; otherwise coerce and assign the four boolean options, the two
prefixes, and the group definitions (function/array kept, falsy disables).
It never consults the scripts registry — there is no lock. -/
def setOptions (opts : Options) (input : JSVal) : Except String Options :=
  if isObjectJs input = false then
    Except.error "gtm.conf method expects a config object"
  else
    Except.ok (setOptionsGroups (setOptionsPrefix (setOptionsBools opts input) input) input)

/-- feedback.js `USAGE_INFO` (brace characters written as escapes). -/
def USAGE_INFO : String :=
  "\nExpected usage:\nconst gtm = require('gulp-task-maker')\n\n// set up with the task directory path\ngtm.add('path/to/tasks', \x7b\n  mytask: \x7b … \x7d,\n  othertask: \x7b … \x7d\n\x7d)\n\n// or set up a single task\ngtm.add('path/to/tasks/something.js', \x7b … \x7d)\n\n// or skip the script loader and provide your own function\ngtm.add(myTaskFunction, \x7b … \x7d)\n"

/-- feedback.js `USAGE_REDECLARE` (brace characters written as escapes). -/
def USAGE_REDECLARE : String :=
  "\nThis error happens when you’re trying to configure\nthe same task several times with gulp-task-maker.\nMake sure you are not redeclaring the same task script.\n\n// Usage for declaring a script with several builds:\nconst gtm = require('gulp-task-maker')\n\n// bad, will fail!\ngtm.add('path/to/mytask.js', \x7b src: 'foo/*.js', dest: 'dist/foo.js' \x7d)\ngtm.add('path/to/mytask.js', \x7b src: 'bar/*.js', dest: 'dist/bar.js' \x7d)\n\n// do this instead:\ngtm.add('path/to/mytask.js', [\n  \x7b src: 'foo/*.js', dest: 'dist/foo.js' \x7d,\n  \x7b src: 'bar/*.js', dest: 'dist/bar.js' \x7d\n])\n"

/-- A task callback as the `add` module sees it: its reference identity, its
`name` and `displayName` properties, and its `defaultConfig`/`baseConfig`. -/
structure Callback where
  ref : Nat
  fname : JSVal
  displayName : JSVal
  defaultConfig : JSVal

/-- One entry of the `scripts` registry (`state.js`), as built by the `add`
module. -/
structure ScriptRecord where
  name : String
  callback : Callback
  configs : List Obj
  normalizedConfigs : List Obj
  errors : List String
  sources : List String

/-- The module state the registration code touches: the global options, the
`scripts` registry, and the ids of the gulp tasks registered so far. -/
structure GtmState where
  options : Options
  scripts : List ScriptRecord
  gulpTasks : List String

/-- `a || b`. -/
def jsOr (a b : JSVal) : JSVal := if truthy a then a else b

/-- helpers.js `toObjectArray`: wrap a non-array input in a one-element
array and keep the object-typed values. JS `isObject` also accepts arrays
(`typeof [] === 'object'`); an array kept as a config behaves as an object
whose enumerable own properties are its index keys. -/
def toObjectArray (input : JSVal) : List Obj :=
  (match input with
    | JSVal.arr xs => xs
    | v => [v]).filterMap (fun v => match v with
      | JSVal.obj fs => some fs
      | JSVal.arr xs =>
          some (((List.range xs.length).zip xs).map
            (fun (p : Nat × JSVal) => (toString p.1, p.2)))
      | _ => none)

/-- What a call to the `add` module does besides updating the state. -/
inductive AddOutcome where
  | registered
  | anonymousError (msg : String)
  | redeclareError (msg : String)
  | missingConfigDeferred (msg : String)
  | validationThrown
  | crashedTypeError

/-- The gulp task ids registered by `defineGulpTask` over a config list:
the build id always, then the watch id when a watch task is defined. -/
def flattenTaskPairs (pairs : List (String × Option String)) : List String :=
  pairs.foldr (fun p acc =>
    p.1 :: (match p.2 with | some w => w :: acc | none => acc)) []

/-- The string elements of a normalized config's `src` array. -/
def srcStrings (nc : Obj) : List String :=
  match getProp nc "src" with
  | JSVal.arr xs => xs.filterMap (fun v => match v with
      | JSVal.str s => some s
      | _ => none)
  | _ => []

/-- `Array.from(new Set(normalized.map(conf => conf.src).reduce(concat)))`:
the deduplicated union of the normalized `src` lists. (The initial-value-less
`reduce` would throw on an empty list, but `registerTasks` is only reached
with at least one config.) -/
def collectSources (normalized : List Obj) : List String :=
  dedupFirst (normalized.foldr (fun nc acc => srcStrings nc ++ acc) [])

/-- `register.js` `registerTasks` as called from the `add` module, acting on
the module state. When every supplied config is valid, the job data is
completed and the build/watch gulp tasks are registered. Any invalid config
makes `validateConfig` throw before any task is defined — the validation
error in strict mode, the `scripts[name]` TypeError otherwise (claim C4) —
with `data` already pushed onto the scripts registry. -/
def registerTasksRun (st : GtmState) (nm : String) (cb : Callback)
    (configs : List Obj) : GtmState × AddOutcome :=
  if ((configs.map (mergeBase cb.defaultConfig)).map normalizeSrc).all validOk then
    ({ st with
        scripts := st.scripts ++ [⟨nm, cb, configs,
          normalizeUserConfig cb.defaultConfig configs, [],
          collectSources (normalizeUserConfig cb.defaultConfig configs)⟩],
        gulpTasks := st.gulpTasks
          ++ flattenTaskPairs (registerTaskPairs
              ⟨st.options.prefixBuild, st.options.prefixWatch⟩
              nm cb.defaultConfig configs) },
     AddOutcome.registered)
  else
    ({ st with scripts := st.scripts ++ [⟨nm, cb, configs, [], [], []⟩] },
     if st.options.strict then AddOutcome.validationThrown
     else AddOutcome.crashedTypeError)

/-- The `add` module of src/unnamed/part_005, called with a function
callback: resolve the callback name (`displayName || name`), reject
anonymous callbacks, reject a name already present in the scripts registry
("already configured", before anything is pushed), then push the job data
and register its tasks. The "missing or bad config object" error is passed
to `handleError` *with* the `data.errors` store, so it is pushed onto the
job's deferred error list even in strict mode: feedback.js's `handleError`
pushes whenever a store array is provided, without checking
`options.strict`. -/
def addTasks (st : GtmState) (cb : Callback) (configsMixed : JSVal) :
    GtmState × AddOutcome :=
  match jsOr cb.displayName cb.fname with
  | JSVal.str nm =>
      if st.scripts.any (fun s => s.name = nm) then
        (st, AddOutcome.redeclareError
          ("Task '" ++ nm ++ "' already configured\n" ++ USAGE_REDECLARE))
      else if (toObjectArray configsMixed).length = 0 then
        ({ st with scripts := st.scripts
            ++ [⟨nm, cb, toObjectArray configsMixed, [],
                ["Task '" ++ nm ++ "': missing or bad config object\n" ++ USAGE_INFO],
                []⟩] },
         AddOutcome.missingConfigDeferred
           ("Task '" ++ nm ++ "': missing or bad config object\n" ++ USAGE_INFO))
      else registerTasksRun st nm cb (toObjectArray configsMixed)
  | _ => (st, AddOutcome.anonymousError
      ("Callback function cannot be anonymous\n(use a function declaration or the  displayName property)\n" ++ USAGE_INFO))

/-- The callback for the C6 failing input. -/
def c6cb : Callback := ⟨0, JSVal.str "mytask", JSVal.undef, JSVal.undef⟩

/-- A strict-mode initial state. -/
def c6st0 : GtmState :=
  ⟨⟨false, true, true, true, "build_", "watch_", []⟩, [], []⟩

/-- Two distinct function values whose derived name is `pack`. -/
def c7cb1 : Callback := ⟨0, JSVal.str "pack", JSVal.undef, JSVal.undef⟩

/-- A second, different function value also named `pack`. -/
def c7cb2 : Callback := ⟨1, JSVal.str "pack", JSVal.undef, JSVal.undef⟩

/-- A non-strict initial state with no jobs. -/
def c7st0 : GtmState :=
  ⟨⟨false, true, true, false, "build_", "watch_", []⟩, [], []⟩

/-- A valid config for the C7 witness. -/
def c7cfg : JSVal := JSVal.obj [("src", JSVal.str "a.js"), ("dest", JSVal.str "o")]

/-- `setOptions` acting on the module state: it reads and writes only
`options` — the scripts registry is never consulted, so its behavior does
not depend on whether jobs have been registered. -/
def setOptionsRun (st : GtmState) (input : JSVal) : GtmState × Option String :=
  match setOptions st.options input with
  | Except.ok opts => ({ st with options := opts }, none)
  | Except.error e => (st, some e)

/-- A function callback named `pack` for the C8 counterexample. -/
def c8cb : Callback := ⟨0, JSVal.str "pack", JSVal.undef, JSVal.undef⟩

/-- The initial state for the C8 counterexample. -/
def c8st0 : GtmState :=
  ⟨⟨false, true, true, false, "build_", "watch_", []⟩, [], []⟩

/-- The state after one successful `add` call: one job registered. -/
def c8st1 : GtmState :=
  (addTasks c8st0 c8cb (JSVal.obj [("src", JSVal.str "a.js"), ("dest", JSVal.str "o")])).1

/-- shared.js `strToBool`: membership in the truthy keyword list only
(`['1','true','on','yes'].indexOf(String(x).trim().toLowerCase()) !== -1`). -/
def sharedStrToBool (x : JSVal) : Bool :=
  ["1", "true", "on", "yes"].contains (jsToLower (jsTrim (jsToString x)))

/-- The legacy options object of shared.js (`config`). -/
structure LegacyConfig where
  notify : Bool
  strict : Bool
  prefixBuild : String
  prefixWatch : String
  groups : Obj

/-- The lock flags of shared.js (`flags`). -/
structure LegacyFlags where
  errorsShown : Bool
  optionsLocked : Bool

/-- `['boolean', 'string', 'number'].indexOf(typeof input[opt]) !== -1`. -/
def boolStrNum : JSVal → Bool
  | JSVal.bool _ => true
  | JSVal.str _ => true
  | JSVal.num _ => true
  | _ => false

/-- The `strict`/`notify` loop of shared.js `configure`. -/
def sharedConfigureBools (cfg : LegacyConfig) (input : JSVal) : LegacyConfig :=
  { cfg with
    strict := if boolStrNum (getProp (fieldsOf input) "strict")
              then sharedStrToBool (getProp (fieldsOf input) "strict")
              else cfg.strict,
    notify := if boolStrNum (getProp (fieldsOf input) "notify")
              then sharedStrToBool (getProp (fieldsOf input) "notify")
              else cfg.notify }

/-- The `input.prefix` block of shared.js `configure`. -/
def sharedConfigurePrefix (cfg : LegacyConfig) (input : JSVal) : LegacyConfig :=
  if isObjectJs (getProp (fieldsOf input) "prefix") then
    { cfg with
      prefixBuild := (match getProp (fieldsOf (getProp (fieldsOf input) "prefix")) "build" with
        | JSVal.str s => prefixClean s
        | _ => cfg.prefixBuild),
      prefixWatch := (match getProp (fieldsOf (getProp (fieldsOf input) "prefix")) "watch" with
        | JSVal.str s => prefixClean s
        | _ => cfg.prefixWatch) }
  else cfg

/-- The `input.groups` block of shared.js `configure`. -/
def sharedConfigureGroups (cfg : LegacyConfig) (input : JSVal) : LegacyConfig :=
  if isObjectJs (getProp (fieldsOf input) "groups") then
    { cfg with groups :=
        (fieldsOf (getProp (fieldsOf input) "groups")).foldl (fun g p =>
          match p.2 with
          | JSVal.func i => setProp g p.1 (JSVal.func i)
          | JSVal.arr xs => setProp g p.1 (JSVal.arr xs)
          | v => if truthy v then g else setProp g p.1 JSVal.null) cfg.groups }
  else cfg

/-- shared.js `configure`: ignore a non-object input; otherwise coerce
`strict`/`notify`, clean the prefixes, and set the group definitions. -/
def sharedConfigure (cfg : LegacyConfig) (input : JSVal) : LegacyConfig :=
  if isObjectJs input = false then cfg
  else sharedConfigureGroups (sharedConfigurePrefix (sharedConfigureBools cfg input) input) input

/-- part_003 `loadTasks` (and `loadSingle`) set `_flags.optionsLocked = true`
before registering any task. -/
def legacyLoadLock (fl : LegacyFlags) : LegacyFlags :=
  { fl with optionsLocked := true }

/-- The lock error of part_003 `configure`. -/
def lockErrMsg : String :=
  "gulp-task-maker configuration cannot be changed at this point\nThe `conf` method cannot be called after any use of `load` or `task`."

/-- part_003 `configure`: refuse to change anything once the options lock
flag is set, reporting the configuration error through `handleError`
(surfaced via `notify`); otherwise defer to shared.js `configure`. -/
def legacyConfigure (fl : LegacyFlags) (cfg : LegacyConfig) (input : JSVal) :
    LegacyConfig × Option String :=
  if fl.optionsLocked then (cfg, some lockErrMsg)
  else (sharedConfigure cfg input, none)

/-! ## Lemmas and claim theorems -/

theorem getProp_cons (p : String × JSVal) (ps : Obj) (k : String) :
    getProp (p :: ps) k = if p.1 = k then p.2 else getProp ps k := by
  by_cases hp : p.1 = k <;> simp [getProp, List.find?_cons, hp]

theorem getProp_map_replace (o : Obj) (k k' : String) (v : JSVal) (hk : k' ≠ k) :
    getProp (o.map (fun p => if p.1 = k then (k, v) else p)) k' = getProp o k' := by
  induction o with
  | nil => rfl
  | cons p ps ih =>
      by_cases hp : p.1 = k
      · simp only [List.map_cons, hp, if_pos]
        rw [getProp_cons, getProp_cons, hp]
        simp only [hk.symm, if_false, if_neg (fun hh : (k, v).1 = k' => hk hh.symm)]
        exact ih
  -- the head keeps its key when it is not `k`
      · simp only [List.map_cons, if_neg hp]
        rw [getProp_cons, getProp_cons]
        by_cases hp' : p.1 = k'
        · simp [hp']
        · simp only [hp', if_false]
          exact ih

theorem getProp_append_fresh (o : Obj) (k : String) (v : JSVal)
    (h : ∀ p ∈ o, p.1 ≠ k) : getProp (o ++ [(k, v)]) k = v := by
  induction o with
  | nil => simp [getProp, List.find?_cons]
  | cons p ps ih =>
      rw [List.cons_append, getProp_cons]
      rw [if_neg (h p (List.mem_cons_self p ps))]
      exact ih (fun q hq => h q (List.mem_cons_of_mem _ hq))

theorem getProp_map_replace_same (o : Obj) (k : String) (v : JSVal)
    (h : o.any (fun p => p.1 = k) = true) :
    getProp (o.map (fun p => if p.1 = k then (k, v) else p)) k = v := by
  induction o with
  | nil => simp at h
  | cons p ps ih =>
      by_cases hp : p.1 = k
      · simp only [List.map_cons, hp, if_pos]
        rw [getProp_cons]
        simp
      · simp only [List.any_cons, hp, decide_eq_true_eq, false_or] at h
        simp only [List.map_cons, if_neg hp]
        rw [getProp_cons]
        rw [if_neg hp]
        exact ih (by simpa using h)

theorem getProp_setProp_same (o : Obj) (k : String) (v : JSVal) :
    getProp (setProp o k v) k = v := by
  unfold setProp
  by_cases h : o.any (fun p => p.1 = k)
  · rw [if_pos h]
    exact getProp_map_replace_same o k v h
  · rw [if_neg h]
    refine getProp_append_fresh o k v ?_
    intro p hp hpk
    simp only [List.any_eq_true, decide_eq_true_eq, not_exists, not_and] at h
    exact h p hp hpk

theorem getProp_append_single_diff (o : Obj) (k k' : String) (v : JSVal) (hk : k' ≠ k) :
    getProp (o ++ [(k, v)]) k' = getProp o k' := by
  induction o with
  | nil => simp [getProp, List.find?_cons, hk.symm]
  | cons p ps ih =>
      rw [List.cons_append, getProp_cons, getProp_cons]
      by_cases hp' : p.1 = k'
      · simp [hp']
      · simp only [hp', if_false]
        exact ih

theorem getProp_setProp_diff (o : Obj) (k k' : String) (v : JSVal) (hk : k' ≠ k) :
    getProp (setProp o k v) k' = getProp o k' := by
  unfold setProp
  by_cases h : o.any (fun p => p.1 = k)
  · rw [if_pos h]
    exact getProp_map_replace o k k' v hk
  · rw [if_neg h]
    exact getProp_append_single_diff o k k' v hk

/-- Keys of `setProp o k v`. -/
theorem keys_setProp (o : Obj) (k : String) (v : JSVal) :
    (setProp o k v).map Prod.fst =
      if o.any (fun p => p.1 = k) then
        o.map (fun p => if p.1 = k then k else p.1)
      else o.map Prod.fst ++ [k] := by
  unfold setProp
  by_cases h : o.any (fun p => p.1 = k)
  · rw [if_pos h, if_pos h, List.map_map]
    refine List.map_congr_left ?_
    intro p _
    by_cases hp : p.1 = k <;> simp [hp]
  · rw [if_neg h, if_neg h, List.map_append]
    rfl

theorem NoDupKeys.setProp {o : Obj} (h : NoDupKeys o) (k : String) (v : JSVal) :
    NoDupKeys (GTM.setProp o k v) := by
  unfold NoDupKeys
  rw [keys_setProp]
  by_cases hany : o.any (fun p => p.1 = k)
  · rw [if_pos hany]
    have : (o.map fun p => if p.1 = k then k else p.1) = o.map Prod.fst := by
      refine List.map_congr_left ?_
      intro p _
      by_cases hp : p.1 = k <;> simp [hp]
    rw [this]; exact h
  · rw [if_neg hany]
    have hk : k ∉ o.map Prod.fst := by
      intro hmem
      obtain ⟨p, hp, hpk⟩ := List.mem_map.mp hmem
      simp only [List.any_eq_true, decide_eq_true_eq, not_exists, not_and] at hany
      exact hany p hp hpk
    refine h.append (List.nodup_singleton k) ?_
    intro a ha hb
    rw [List.mem_singleton] at hb
    subst hb
    exact hk ha

theorem NoDupKeys.assignObj {t : Obj} (h : NoDupKeys t) (o : Obj) :
    NoDupKeys (GTM.assignObj t o) := by
  induction o generalizing t with
  | nil => exact h
  | cons p ps ih => exact ih (h.setProp p.1 p.2)

theorem getProp_assignObj_not_mem (t o : Obj) (k : String)
    (h : k ∉ o.map Prod.fst) : getProp (assignObj t o) k = getProp t k := by
  induction o generalizing t with
  | nil => rfl
  | cons p ps ih =>
      have h1 : ¬ (k = p.1) := fun hh => h (by
        rw [List.map_cons, hh]
        exact List.mem_cons_self p.1 (ps.map Prod.fst))
      have h2 : k ∉ ps.map Prod.fst := fun hh => h (by
        rw [List.map_cons]
        exact List.mem_cons_of_mem _ hh)
      rw [show assignObj t (p :: ps) = assignObj (setProp t p.1 p.2) ps from rfl,
        ih _ h2]
      exact getProp_setProp_diff t p.1 k p.2 h1

theorem getProp_assignObj_mem (t o : Obj) (k : String)
    (hnd : NoDupKeys o) (h : k ∈ o.map Prod.fst) :
    getProp (assignObj t o) k = getProp o k := by
  induction o generalizing t with
  | nil => simp at h
  | cons p ps ih =>
      have hnd0 : (p.1 :: ps.map Prod.fst).Nodup := by
        simpa [NoDupKeys] using hnd
      rw [show assignObj t (p :: ps) = assignObj (setProp t p.1 p.2) ps from rfl]
      by_cases hp : p.1 = k
      · have hnot : k ∉ ps.map Prod.fst := by
          have := (List.nodup_cons.mp hnd0).1
          rw [hp] at this
          exact this
        rw [getProp_assignObj_not_mem _ _ _ hnot, hp, getProp_setProp_same,
          getProp_cons, if_pos hp]
      · have hmem : k ∈ ps.map Prod.fst := by
          rcases List.mem_cons.mp (by rw [List.map_cons] at h; exact h) with h1 | h1
          · exact absurd h1.symm hp
          · exact h1
        have hnd' : NoDupKeys ps := (List.nodup_cons.mp hnd0).2
        rw [ih _ hnd' hmem, getProp_cons, if_neg hp]

theorem mem_keys_of_getProp_ne_undef {o : Obj} {k : String}
    (h : getProp o k ≠ JSVal.undef) : k ∈ o.map Prod.fst := by
  unfold getProp at h
  cases hf : o.find? (fun p => p.1 = k) with
  | none => rw [hf] at h; exact absurd rfl h
  | some p =>
      have hp := List.find?_some hf
      have hmem := List.mem_of_find?_eq_some hf
      exact List.mem_map.mpr ⟨p, hmem, by simpa using hp⟩

theorem getProp_eq_undef_of_not_mem {o : Obj} {k : String}
    (h : k ∉ o.map Prod.fst) : getProp o k = JSVal.undef := by
  unfold getProp
  rw [List.find?_eq_none.mpr]
  intro p hp
  simp only [decide_eq_true_eq]
  exact fun hpk => h (List.mem_map.mpr ⟨p, hp, hpk⟩)

theorem nodupKeys_mergeBase (base : JSVal) (o : Obj) :
    NoDupKeys (mergeBase base o) :=
  NoDupKeys.assignObj (NoDupKeys.assignObj (by simp [NoDupKeys]) _) o

/-- The `"src"` property after `normalizeSrc`: always the canonicalized list. -/
theorem getProp_normalizeSrc_src (conf : Obj) :
    getProp (normalizeSrc conf) "src" = strArr (toUniqueStrings (getProp conf "src")) := by
  unfold normalizeSrc
  rw [getProp_setProp_diff _ _ _ _ (by decide), getProp_setProp_same]

/-- The `"watch"` property after `normalizeSrc`. -/
theorem getProp_normalizeSrc_watch (conf : Obj) :
    getProp (normalizeSrc conf) "watch" =
      strArr (if isLiteralTrue (getProp conf "watch")
              then toUniqueStrings (getProp conf "src")
              else toUniqueStrings (getProp conf "watch")) := by
  unfold normalizeSrc
  rw [getProp_setProp_same]

/-- `normalizeSrc` only rewrites `src` and `watch`; every other property of
(a well-formed) config keeps its value in the shallow clone. -/
theorem getProp_normalizeSrc_other (conf : Obj) (k : String)
    (hnd : NoDupKeys conf) (h1 : k ≠ "src") (h2 : k ≠ "watch") :
    getProp (normalizeSrc conf) k = getProp conf k := by
  unfold normalizeSrc
  rw [getProp_setProp_diff _ _ _ _ h2, getProp_setProp_diff _ _ _ _ h1]
  by_cases hmem : k ∈ conf.map Prod.fst
  · exact getProp_assignObj_mem _ _ _ hnd hmem
  · rw [getProp_assignObj_not_mem _ _ _ hmem, getProp_eq_undef_of_not_mem hmem]
    rfl

theorem dedupFirstAux_short (seen : List String) (l : List String)
    (h : l.length ≤ 1) (hs : ∀ x ∈ l, x ∉ seen) : dedupFirstAux seen l = l := by
  match l with
  | [] => rfl
  | [x] =>
      unfold dedupFirstAux
      rw [if_neg (hs x (List.mem_singleton_self x))]
      rfl
  | x :: y :: xs => simp at h

theorem if_length_dedupFirst (l : List String) :
    (if l.length > 1 then dedupFirst l else l) = dedupFirst l := by
  by_cases h : l.length > 1
  · rw [if_pos h]
  · rw [if_neg h]
    unfold dedupFirst
    rw [dedupFirstAux_short [] l (by omega) (by intro x _ hx; simp at hx)]

/-- The source's `toUniqueStrings` computes exactly the claim's canonical
`src` list: the `list.length > 1` shortcut skips deduplication only when it
cannot change anything. -/
theorem toUniqueStrings_eq_specCanonSrc (input : JSVal) :
    toUniqueStrings input = specCanonSrc input := by
  unfold toUniqueStrings specCanonSrc
  exact if_length_dedupFirst _

/-- C2 counterexample: the claim says a config whose `dest` is a string *or a
function* and whose `src` canonicalizes to a non-empty list is kept by
normalization. `register.js`'s `validateConfig` only accepts a string
`dest` (its message: "Property 'dest' must be a string"), so a config with a
function `dest` and non-empty `src` is dropped. -/
theorem claim_C2_counterexample :
    getProp c2conf "dest" = JSVal.func 0
    ∧ toUniqueStrings (getProp c2conf "src") = ["a.js"]
    ∧ normalizeUserConfig JSVal.undef [c2conf] = [] :=
  ⟨rfl, rfl, rfl⟩

/-- C2 (amended: `dest` must be a *string*; a function `dest` is rejected):
for every raw config whose `dest` is a string and whose `src` canonicalizes
to a non-empty list, normalization keeps the entry in place, and the
resulting `src` is the list of trimmed non-blank string elements of the
input `src`, in first-seen order with duplicates removed. -/
theorem claim_C2_amended (base : JSVal) (pre post : List Obj) (conf : Obj)
    (hnd : NoDupKeys conf) (d : String)
    (hdest : getProp conf "dest" = JSVal.str d)
    (hsrc : toUniqueStrings (getProp conf "src") ≠ []) :
    normalizeUserConfig base (pre ++ conf :: post)
      = normalizeUserConfig base pre
        ++ normalizeSrc (mergeBase base conf) :: normalizeUserConfig base post
    ∧ getProp (normalizeSrc (mergeBase base conf)) "src"
      = strArr (specCanonSrc (getProp conf "src")) := by
  have hdmem : "dest" ∈ conf.map Prod.fst :=
    mem_keys_of_getProp_ne_undef (by rw [hdest]; exact fun h => JSVal.noConfusion h)
  have hdm : getProp (mergeBase base conf) "dest" = JSVal.str d := by
    unfold mergeBase
    rw [getProp_assignObj_mem _ _ _ hnd hdmem, hdest]
  have hsmem : "src" ∈ conf.map Prod.fst := by
    by_contra hmem
    rw [getProp_eq_undef_of_not_mem hmem] at hsrc
    exact hsrc rfl
  have hsm : getProp (mergeBase base conf) "src" = getProp conf "src" := by
    unfold mergeBase
    rw [getProp_assignObj_mem _ _ _ hnd hsmem]
  have hndm : NoDupKeys (mergeBase base conf) := nodupKeys_mergeBase base conf
  have hsrcn : getProp (normalizeSrc (mergeBase base conf)) "src"
      = strArr (toUniqueStrings (getProp conf "src")) := by
    rw [getProp_normalizeSrc_src, hsm]
  have herr : validateErrors (normalizeSrc (mergeBase base conf)) = [] := by
    unfold validateErrors
    rw [getProp_normalizeSrc_other _ _ hndm (by decide) (by decide), hdm, hsrcn]
    cases hlist : toUniqueStrings (getProp conf "src") with
    | nil => exact absurd hlist hsrc
    | cons a l => simp [strArr]
  have hvalid : validOk (normalizeSrc (mergeBase base conf)) = true := by
    unfold validOk
    rw [herr]
    rfl
  refine ⟨?_, ?_⟩
  · simp [normalizeUserConfig, List.filter_append, List.filter_cons, hvalid]
  · rw [hsrcn, toUniqueStrings_eq_specCanonSrc]

theorem claim_C2_amended_witness :
    normalizeUserConfig JSVal.undef [c2wconf]
      = [normalizeSrc (mergeBase JSVal.undef c2wconf)]
    ∧ getProp (normalizeSrc (mergeBase JSVal.undef c2wconf)) "src"
      = strArr (specCanonSrc (getProp c2wconf "src")) := by
  have h := claim_C2_amended JSVal.undef [] [] c2wconf (by decide) "out" rfl (by decide)
  simpa using h

/-- C3: with `watch` set to the literal `true`, the normalized `watch` list
is exactly the normalized (trimmed, deduplicated) `src` list of the same
config — the canonical list, never the raw pre-deduplication value. -/
theorem claim_C3 (conf : Obj) (h : getProp conf "watch" = JSVal.bool true) :
    getProp (normalizeSrc conf) "watch" = getProp (normalizeSrc conf) "src"
    ∧ getProp (normalizeSrc conf) "watch" = strArr (specCanonSrc (getProp conf "src")) := by
  have hlit : isLiteralTrue (getProp conf "watch") = true := by rw [h]; rfl
  refine ⟨?_, ?_⟩
  · rw [getProp_normalizeSrc_watch, getProp_normalizeSrc_src, hlit]
    simp
  · rw [getProp_normalizeSrc_watch, hlit]
    simp [toUniqueStrings_eq_specCanonSrc]

theorem claim_C3_witness :
    getProp (normalizeSrc c3conf) "watch" = getProp (normalizeSrc c3conf) "src"
    ∧ getProp (normalizeSrc c3conf) "watch" = strArr ["a", "b"] := by
  have h := claim_C3 c3conf rfl
  exact ⟨h.1, by rw [h.2]; rfl⟩

/-- C1: for every job definition with callback name `name` and normalized
config `nc` at index `i`, the registered build task id is the build prefix
followed by the claim's derived job id, and the watch task id (registered
exactly when the normalized `watch` list is non-empty) is the watch prefix
followed by the same id. -/
theorem claim_C1 (px : Prefixes) (name : String) (baseConfig : JSVal)
    (configs : List Obj) (i : Nat) (nc : Obj)
    (h : (normalizeUserConfig baseConfig configs)[i]? = some nc) :
    (registerTaskPairs px name baseConfig configs)[i]? =
      some (px.build ++ specJobId name nc i configs.length,
        if watchNonEmpty nc then some (px.watch ++ specJobId name nc i configs.length)
        else none) := by
  unfold registerTaskPairs
  rw [List.getElem?_map, List.getElem?_enum, h]
  rfl

/-- C1 witness: callback named `alpha` with the two configs of `c1cfgs`;
the registered ids are `build_alpha_1` with `watch_alpha_1`, and
`build_alpha_beta` with no watch task. -/
theorem claim_C1_witness :
    (registerTaskPairs ⟨"build_", "watch_"⟩ "alpha" JSVal.undef c1cfgs)[0]?
      = some ("build_alpha_1", some "watch_alpha_1")
    ∧ (registerTaskPairs ⟨"build_", "watch_"⟩ "alpha" JSVal.undef c1cfgs)[1]?
      = some ("build_alpha_beta", none) := by
  constructor
  · rw [claim_C1 ⟨"build_", "watch_"⟩ "alpha" JSVal.undef c1cfgs 0
      [("dest", JSVal.str "out"), ("src", JSVal.arr [JSVal.str "a.js"]),
       ("watch", JSVal.arr [JSVal.str "a.js"])] rfl]
    rfl
  · rw [claim_C1 ⟨"build_", "watch_"⟩ "alpha" JSVal.undef c1cfgs 1
      [("dest", JSVal.str "out"), ("src", JSVal.arr [JSVal.str "b.js"]),
       ("name", JSVal.str "beta"), ("watch", JSVal.arr [])] rfl]
    rfl

theorem groupsIncludesChild_false (groups : List (String × GroupValue)) (child : String) :
    groupsIncludesChild groups child = false := by
  unfold groupsIncludesChild
  induction groups with
  | nil => rfl
  | cons p ps ih => simp [ih]

/-- The group-exclusion filter of `defineTaskGroups` removes nothing:
`groups.includes(child)` is always false, so a predicate group's children
are exactly the predicate-filtered task names, group names included. -/
theorem computedChildren_pred_noop (groups : List (String × GroupValue))
    (gulpTasks : List String) (f : String → Bool) :
    computedChildren groups gulpTasks (GroupValue.pred f) = some (gulpTasks.filter f) := by
  have h : ∀ child, (! groupsIncludesChild groups child) = true := by
    intro child
    rw [groupsIncludesChild_false]
    rfl
  unfold computedChildren
  simp [h]

/-- C5 (code bug): with `options.groups = { build: name => true }` and the
group task `build` already present in the gulp registry (as happens on every
`add` call after the first), the computed children of the `build` group
contain the group's own name — the exclusion filter compares the task-name
string against `[name, value]` pair arrays and never matches, although the
code's own comment says "Group tasks should not call themselves/other
groups". (`register.js`'s `registerTaskGroups` has no exclusion filter at
all.) -/
theorem claim_C5_code_bug :
    computedChildren (groupPairs [("build", GroupValue.pred (fun _ => true))])
        ["build"] (GroupValue.pred (fun _ => true))
      = some ["build"] := by
  rw [computedChildren_pred_noop]
  rfl

theorem showLoadingErrorsStep_shown (missing : String → Bool)
    (scripts : List ScriptData) :
    showLoadingErrorsStep missing true scripts = (true, none) := rfl

theorem runShowLoadingErrors_shown (missing : String → Bool)
    (calls : List (List ScriptData)) :
    runShowLoadingErrors missing true calls = (true, 0) := by
  induction calls with
  | nil => rfl
  | cons c cs ih =>
      unfold runShowLoadingErrors
      rw [showLoadingErrorsStep_shown]
      simp [ih]

theorem showLoadingErrorsStep_sets_flag (missing : String → Bool)
    (shown : Bool) (scripts : List ScriptData)
    (h : ((showLoadingErrorsStep missing shown scripts).2).isSome = true) :
    (showLoadingErrorsStep missing shown scripts).1 = true := by
  unfold showLoadingErrorsStep at h ⊢
  by_cases hs : shown = true
  · rw [if_pos hs] at h
    simp at h
  · rw [if_neg hs] at h ⊢
    by_cases hf : (failedTasks missing scripts).length ≠ 0
    · rw [if_pos hf]
    · rw [if_neg hf] at h
      simp at h

/-- C9: within one process run, the consolidated report is emitted at most
once, and any call that emits it has at least one script with a recorded
problem (a missing source or a deferred error) — problem-free scripts never
trigger it. -/
theorem claim_C9 (missing : String → Bool) (calls : List (List ScriptData)) :
    (runShowLoadingErrors missing false calls).2 ≤ 1
    ∧ ∀ shown scripts,
        ((showLoadingErrorsStep missing shown scripts).2).isSome = true →
        ∃ d ∈ scripts, hasProblem missing d = true := by
  constructor
  · induction calls with
    | nil => exact Nat.zero_le 1
    | cons c cs ih =>
        unfold runShowLoadingErrors
        by_cases h : ((showLoadingErrorsStep missing false c).2).isSome = true
        · rw [showLoadingErrorsStep_sets_flag missing false c h,
            runShowLoadingErrors_shown]
          simp [h]
        · have h2 : (showLoadingErrorsStep missing false c).2 = none := by
            cases hh : (showLoadingErrorsStep missing false c).2 with
            | none => rfl
            | some s => rw [hh] at h; simp at h
          have h1 : (showLoadingErrorsStep missing false c).1 = false := by
            unfold showLoadingErrorsStep at h2 ⊢
            rw [if_neg (by simp : ¬ false = true)] at h2 ⊢
            by_cases hf : (failedTasks missing c).length ≠ 0
            · rw [if_pos hf] at h2
              simp at h2
            · rw [if_neg hf]
          rw [h1, h2]
          simpa using ih
  · intro shown scripts h
    unfold showLoadingErrorsStep at h
    by_cases hs : shown = true
    · rw [if_pos hs] at h
      simp at h
    · rw [if_neg hs] at h
      by_cases hf : (failedTasks missing scripts).length ≠ 0
      · cases hne : scripts.filter (hasProblem missing) with
        | nil =>
            rw [show failedTasks missing scripts
                = (scripts.filter (hasProblem missing)).map ScriptData.name from rfl,
              hne] at hf
            simp at hf
        | cons d ds =>
            have hd : d ∈ scripts.filter (hasProblem missing) := by
              rw [hne]
              exact List.mem_cons_self d ds
            exact ⟨d, (List.mem_filter.mp hd).1, (List.mem_filter.mp hd).2⟩
      · rw [if_neg hf] at h
        simp at h

/-- C9 witness: a run with two calls, both with a failing script, emits the
report exactly once, and the emitting call indeed has a problem script. -/
theorem claim_C9_witness :
    (runShowLoadingErrors (fun _ => false) false [[c9bad], [c9bad]]).2 ≤ 1
    ∧ ∃ d ∈ [c9bad], hasProblem (fun _ => false) d = true := by
  refine ⟨(claim_C9 (fun _ => false) [[c9bad], [c9bad]]).1, ?_⟩
  exact (claim_C9 (fun _ => false) []).2 false [c9bad] (by rfl)

/-- C10 (code bug): on `{src: " a ", watch: true, dest: "d"}`, part_004's
`normalizeSrc` leaves the caller's object changed — its `src` is now the
canonical array `["a"]` instead of the original string `" a "` — although
its own comment says "return a copy instead of mutating conf".
(`register.js`'s version, modelled by `normalizeSrcRun`, does leave the
caller's object untouched.) -/
theorem claim_C10_code_bug :
    (p4normalizeSrc c10conf).2 ≠ c10conf
    ∧ getProp (p4normalizeSrc c10conf).2 "src" = JSVal.arr [JSVal.str "a"]
    ∧ getProp c10conf "src" = JSVal.str " a "
    ∧ (normalizeSrcRun c10conf).2 = c10conf := by
  refine ⟨?_, rfl, rfl, rfl⟩
  intro h
  have h2 := congrArg (fun o => getProp o "src") h
  exact JSVal.noConfusion (show JSVal.arr [JSVal.str "a"] = JSVal.str " a " from h2)

/-- C4 (code bug): a config violating both the `dest` and the `src` contract
produces a single error listing both field messages — but in non-strict mode
(the mode in which the claim's "records" happens) the recording step crashes
with a TypeError instead of appending that error to the job's list, because
`scripts[name]` on the Array registry is `undefined`. Nothing is recorded
and the registry is unchanged. -/
theorem claim_C4_code_bug :
    validateErrors ([] : Obj)
      = ["Property 'dest' must be a string", "Property 'src' property is empty"]
    ∧ validateConfigRun false [⟨"mytask", []⟩] "mytask" ([] : Obj)
      = (false, [⟨"mytask", []⟩], RecordOutcome.typeError) :=
  ⟨rfl, rfl⟩

/-- C6 (code bug): in strict mode, `gtm.add(mytask, "oops")` — a config that
is not an object, so `toObjectArray` keeps nothing — defers its "missing or
bad config object" usage error into the job definition's error list instead
of throwing it: the call site passes `data.errors` unconditionally, and
feedback.js's `handleError` pushes onto any provided store without checking
`options.strict` (the older handleError of src/unnamed/part_003 defers only
when `Array.isArray(store) && _conf.strict === false`). Worse, the strict
process-exit handler skips the report, so the error is never surfaced. -/
theorem claim_C6_code_bug :
    c6st0.options.strict = true
    ∧ (addTasks c6st0 c6cb (JSVal.str "oops")).2
      = AddOutcome.missingConfigDeferred
          ("Task 'mytask': missing or bad config object\n" ++ USAGE_INFO)
    ∧ ((addTasks c6st0 c6cb (JSVal.str "oops")).1).scripts.map ScriptRecord.errors
      = [["Task 'mytask': missing or bad config object\n" ++ USAGE_INFO]] :=
  ⟨rfl, rfl, rfl⟩

theorem addTasks_redeclare (st : GtmState) (cb : Callback) (cfg : JSVal)
    (nm : String) (hname : jsOr cb.displayName cb.fname = JSVal.str nm)
    (hany : st.scripts.any (fun s => s.name = nm) = true) :
    addTasks st cb cfg
      = (st, AddOutcome.redeclareError
          ("Task '" ++ nm ++ "' already configured\n" ++ USAGE_REDECLARE)) := by
  unfold addTasks
  simp only [hname]
  rw [if_pos hany]

theorem addTasks_fresh_appends (st : GtmState) (cb : Callback) (cfg : JSVal)
    (nm : String) (hname : jsOr cb.displayName cb.fname = JSVal.str nm)
    (hfresh : st.scripts.any (fun s => s.name = nm) = false) :
    ∃ r : ScriptRecord, ((addTasks st cb cfg).1).scripts = st.scripts ++ [r]
      ∧ r.name = nm := by
  unfold addTasks
  simp only [hname]
  rw [if_neg (by rw [hfresh]; exact Bool.false_ne_true)]
  by_cases hl : (toObjectArray cfg).length = 0
  · rw [if_pos hl]
    exact ⟨_, rfl, rfl⟩
  · rw [if_neg hl]
    unfold registerTasksRun
    by_cases hv : (((toObjectArray cfg).map (mergeBase cb.defaultConfig)).map
        normalizeSrc).all validOk
    · rw [if_pos hv]
      exact ⟨_, rfl, rfl⟩
    · rw [if_neg hv]
      exact ⟨_, rfl, rfl⟩

/-- C7: two `add` calls whose callbacks have the same derived name but are
different function values: the second call leaves the module state — in
particular the set of registered gulp build/watch tasks — unchanged, and
reports the "already configured" usage error with the redeclare notice
(thrown by `showError` in strict mode, logged otherwise). -/
theorem claim_C7 (st : GtmState) (cb1 cb2 : Callback) (cfg1 cfg2 : JSVal)
    (nm : String)
    (hname1 : jsOr cb1.displayName cb1.fname = JSVal.str nm)
    (hname2 : jsOr cb2.displayName cb2.fname = JSVal.str nm)
    (_href : cb1.ref ≠ cb2.ref)
    (hfresh : st.scripts.any (fun s => s.name = nm) = false) :
    (addTasks (addTasks st cb1 cfg1).1 cb2 cfg2).1 = (addTasks st cb1 cfg1).1
    ∧ (addTasks (addTasks st cb1 cfg1).1 cb2 cfg2).2
      = AddOutcome.redeclareError
          ("Task '" ++ nm ++ "' already configured\n" ++ USAGE_REDECLARE) := by
  obtain ⟨r, hs, hr⟩ := addTasks_fresh_appends st cb1 cfg1 nm hname1 hfresh
  have hany : ((addTasks st cb1 cfg1).1).scripts.any (fun s => s.name = nm) = true := by
    rw [hs, List.any_append]
    have h1 : [r].any (fun s => s.name = nm) = true := by simp [hr]
    rw [h1, Bool.or_true]
  rw [addTasks_redeclare _ cb2 cfg2 nm hname2 hany]
  exact ⟨rfl, rfl⟩

theorem claim_C7_witness :
    (addTasks (addTasks c7st0 c7cb1 c7cfg).1 c7cb2 c7cfg).1
      = (addTasks c7st0 c7cb1 c7cfg).1
    ∧ (addTasks (addTasks c7st0 c7cb1 c7cfg).1 c7cb2 c7cfg).2
      = AddOutcome.redeclareError
          ("Task 'pack' already configured\n" ++ USAGE_REDECLARE) :=
  claim_C7 c7st0 c7cb1 c7cb2 c7cfg c7cfg "pack" rfl rfl (by decide) rfl

/-- C8 counterexample: after a job has been registered (`c8st1` holds one
script record and one registered gulp task), calling the option-setting
entry point with `{strict: true}` is not reported as an error and does
change the options: the v2 `setOptions` of `state.js` has no lock flag. -/
theorem claim_C8_counterexample :
    c8st1.scripts.length = 1
    ∧ c8st1.gulpTasks = ["build_pack"]
    ∧ c8st1.options.strict = false
    ∧ (setOptionsRun c8st1 (JSVal.obj [("strict", JSVal.bool true)])).2 = none
    ∧ (setOptionsRun c8st1 (JSVal.obj [("strict", JSVal.bool true)])).1.options.strict
        = true :=
  ⟨rfl, rfl, rfl, rfl, rfl⟩

/-- C8 (amended): in the legacy load/task API (src/unnamed/part_003 with
shared.js), once `load` or `task` has set the `optionsLocked` flag, every
later `configure` call is reported as a configuration error and leaves every
option value unchanged. The v2 option-setting entry point (`setOptions` in
state.js) has no such lock — the counterexample shows it mutating the
options silently after a job was registered. -/
theorem claim_C8_amended (fl : LegacyFlags) (cfg : LegacyConfig) (input : JSVal) :
    legacyConfigure (legacyLoadLock fl) cfg input = (cfg, some lockErrMsg) := by
  unfold legacyConfigure legacyLoadLock
  rw [if_pos rfl]

end GTM
